import Mathlib

/-!
Verification of the SwarmC2 backend data plane (`backend/main.go`) against its
natural-language specification.  The Go code is shallowly embedded: JSON cell
values become an inductive `JValue` (Go decodes every JSON number to `float64`;
the claims under study only inspect presence/absence and never do float
arithmetic, so the numeric payload is abstracted to `Int` and the Go
conversions `int64(f)` / `int(f)` become the identity on that payload), Go
pointers become `Option`, maps guarded by mutexes become explicit state
passing, and each HTTP round-trip is an input to the state-transition
function modelling the handler.
-/

namespace SwarmC2

/-- A decoded JSON cell as produced by Go `encoding/json` into `interface{}`:
`nil`, `bool`, `float64` (abstracted to `Int`), or `string`.  Upstream state
rows are `List JValue`. -/
inductive JValue where
  | null
  | bool (b : Bool)
  | num (x : Int)
  | str (s : String)
deriving DecidableEq, Repr

/-- Go `getString`: type-assert to string, else `""`. -/
def getString : JValue → String
  | .str s => s
  | _ => ""

/-- Go `getStringPtr`: type-assert to string, else `nil`. -/
def getStringPtr : JValue → Option String
  | .str s => some s
  | _ => none

/-- Go `getFloat64Ptr`: type-assert to float64, else `nil`. -/
def getFloat64Ptr : JValue → Option Int
  | .num x => some x
  | _ => none

/-- Go `getInt64Ptr`: type-assert to float64 and truncate, else `nil`. -/
def getInt64Ptr : JValue → Option Int
  | .num x => some x
  | _ => none

/-- Go `getInt64`: type-assert to float64 and truncate, else `0`. -/
def getInt64 : JValue → Int
  | .num x => x
  | _ => 0

/-- Go `getInt`: type-assert to float64 and truncate, else `0`. -/
def getInt : JValue → Int
  | .num x => x
  | _ => 0

/-- Go `getBool`: type-assert to bool, else `false`. -/
def getBool : JValue → Bool
  | .bool b => b
  | _ => false

/-- Go struct `Aircraft` (one upstream state vector).  Pointer fields are
`Option`; `sensors` and `category` are never assigned by the parser and keep
their Go zero values. -/
structure Aircraft where
  icao24 : String
  callsign : String
  originCountry : String
  timePosition : Option Int
  lastContact : Int
  longitude : Option Int
  latitude : Option Int
  baroAltitude : Option Int
  onGround : Bool
  velocity : Option Int
  trueTrack : Option Int
  verticalRate : Option Int
  sensors : List Int
  geoAltitude : Option Int
  squawk : Option String
  spi : Bool
  positionSource : Int
  category : Int
deriving DecidableEq, Repr

/-- The record built for one row of length ≥ 17 inside Go
`parseAircraftStates` (indices 0–11 and 13–16 of the row; index 12, the
sensors column, is skipped exactly as in the source). -/
def parseAircraftState (state : List JValue) : Aircraft :=
  { icao24 := getString (state.getD 0 .null)
    callsign := getString (state.getD 1 .null)
    originCountry := getString (state.getD 2 .null)
    timePosition := getInt64Ptr (state.getD 3 .null)
    lastContact := getInt64 (state.getD 4 .null)
    longitude := getFloat64Ptr (state.getD 5 .null)
    latitude := getFloat64Ptr (state.getD 6 .null)
    baroAltitude := getFloat64Ptr (state.getD 7 .null)
    onGround := getBool (state.getD 8 .null)
    velocity := getFloat64Ptr (state.getD 9 .null)
    trueTrack := getFloat64Ptr (state.getD 10 .null)
    verticalRate := getFloat64Ptr (state.getD 11 .null)
    sensors := []
    geoAltitude := getFloat64Ptr (state.getD 13 .null)
    squawk := getStringPtr (state.getD 14 .null)
    spi := getBool (state.getD 15 .null)
    positionSource := getInt (state.getD 16 .null)
    category := 0 }

/-- Go `parseAircraftStates`: rows with fewer than 17 cells are skipped
(`continue`); a parsed record is appended only when both `Latitude` and
`Longitude` are non-nil. -/
def parseAircraftStates : List (List JValue) → List Aircraft
  | [] => []
  | state :: rest =>
    if state.length < 17 then parseAircraftStates rest
    else if (parseAircraftState state).latitude.isSome ∧
            (parseAircraftState state).longitude.isSome then
      parseAircraftState state :: parseAircraftStates rest
    else parseAircraftStates rest

theorem parseAircraftStates_mem_coords :
    ∀ states ac, ac ∈ parseAircraftStates states →
      ac.latitude.isSome ∧ ac.longitude.isSome := by
  intro states
  induction states with
  | nil => intro ac h; simp [parseAircraftStates] at h
  | cons s rest ih =>
    intro ac h
    rw [parseAircraftStates] at h
    by_cases hlen : s.length < 17
    · exact ih ac (by simpa [hlen] using h)
    · rw [if_neg hlen] at h
      by_cases hcoord : (parseAircraftState s).latitude.isSome ∧
          (parseAircraftState s).longitude.isSome
      · rw [if_pos hcoord] at h
        rcases List.mem_cons.mp h with hEq | hMem
        · exact hEq ▸ hcoord
        · exact ih ac hMem
      · exact ih ac (by rwa [if_neg hcoord] at h)

/-- Claim C1: a row with fewer than 17 fields is dropped while the rest of the
batch is still processed; a row with at least 17 fields is retained exactly
when both its latitude and longitude cells are present; and every Aircraft
record in the resulting snapshot has both coordinates known. -/
theorem parseAircraftStates_claim :
    (∀ row rest, row.length < 17 →
      parseAircraftStates (row :: rest) = parseAircraftStates rest) ∧
    (∀ row rest, 17 ≤ row.length →
      parseAircraftStates (row :: rest) =
        (if (parseAircraftState row).latitude.isSome ∧
            (parseAircraftState row).longitude.isSome then
          parseAircraftState row :: parseAircraftStates rest
        else parseAircraftStates rest)) ∧
    (∀ states ac, ac ∈ parseAircraftStates states →
      ac.latitude.isSome ∧ ac.longitude.isSome) := by
  refine ⟨?_, ?_, parseAircraftStates_mem_coords⟩
  · intro row rest h
    rw [parseAircraftStates, if_pos h]
  · intro row rest h
    rw [parseAircraftStates, if_neg (by omega)]

/-- A 17-cell row with both coordinates present. -/
def fullRow : List JValue :=
  [.str "abc123", .str "TEST1", .str "US", .num 100, .num 100,
   .num 120, .num 24, .num 1000, .bool false, .num 200,
   .num 90, .num 0, .null, .num 1000, .str "7000", .bool false, .num 0]

/-- A 17-cell row whose longitude cell (index 5) is null. -/
def noLonRow : List JValue :=
  [.str "def456", .str "TEST2", .str "US", .num 100, .num 100,
   .null, .num 24, .num 1000, .bool false, .num 200,
   .num 90, .num 0, .null, .num 1000, .str "7000", .bool false, .num 0]

/-- Witness for C1 at concrete rows: a 1-cell row is dropped, a full row with
both coordinates is kept, a full row missing longitude is dropped. -/
theorem parseAircraftStates_claim_witness :
    parseAircraftStates ([.str "x"] :: [fullRow]) = parseAircraftStates [fullRow] ∧
    parseAircraftStates [fullRow] = [parseAircraftState fullRow] ∧
    parseAircraftStates [noLonRow] = [] := by
  refine ⟨parseAircraftStates_claim.1 [.str "x"] [fullRow] (by decide), ?_, ?_⟩
  · rw [parseAircraftStates_claim.2.1 fullRow [] (by decide)]
    simp [fullRow, parseAircraftState, getFloat64Ptr, parseAircraftStates]
  · rw [parseAircraftStates_claim.2.1 noLonRow [] (by decide)]
    simp [noLonRow, parseAircraftState, getFloat64Ptr, parseAircraftStates]

/-- Go struct `Region`: display name plus bounding box (degrees, exact
rationals for the decimal literals in the source). -/
structure Region where
  name : String
  minLat : ℚ
  maxLat : ℚ
  minLon : ℚ
  maxLon : ℚ
deriving DecidableEq, Repr

/-- Go package-level `regions` map: the statically configured regions. -/
def regions : List (String × Region) :=
  [("taiwan", ⟨"Taiwan Strait", 21.5, 26.0, 117.0, 123.0⟩),
   ("socal", ⟨"Southern California", 32.5, 34.5, -120.0, -117.0⟩),
   ("europe", ⟨"United Kingdom", 49.9, 60.9, -8.2, 1.8⟩),
   ("global", ⟨"Global", -90.0, 90.0, -180.0, 180.0⟩)]

/-- Map lookup `regions[name]`. -/
def lookupRegion (id : String) : Option Region :=
  (regions.find? (fun p => p.1 = id)).map (·.2)

/-- Go struct `AirspaceData`: one region snapshot as cached and broadcast. -/
structure AirspaceData where
  timestamp : Int
  aircraft : List Aircraft
  region : String
  count : Int
deriving DecidableEq, Repr

/-- Go struct `TacticalAnalysis`.  The polymorphic `interface{}`-valued lists
and map are modelled as `JValue` payloads; `raw` is the reply text kept as a
character list. -/
structure TacticalAnalysis where
  timestamp : String
  region : String
  overallThreatLevel : String
  threatScore : Int
  summary : String
  keyObservations : List JValue
  aircraftOfInterest : List JValue
  tacticalRecommendations : List JValue
  patternAnalysis : Option JValue
  nextUpdatePriority : String
  raw : List Char
deriving DecidableEq, Repr

/-- The anonymous struct Go unmarshals an inbound WebSocket text frame into:
`{Action, Region}`.  A frame that fails to unmarshal is modelled as `none`
at the call site. -/
structure WsRequest where
  action : String
  region : String
deriving DecidableEq, Repr

/-- A message the server writes to one WebSocket connection: either a raw
snapshot (`conn.WriteJSON(data)`) or an analysis envelope
(`broadcastAnalysisToClients`). -/
inductive ServerMessage where
  | snapshot (d : AirspaceData)
  | analysisMsg (region : String) (a : TacticalAnalysis)
deriving DecidableEq, Repr

/-- The two read-shared caches consulted by the WebSocket handler:
`airspaceCache` and `analysisCache` (each a Go map guarded by an RWMutex). -/
structure WsCaches where
  airspaceCache : String → Option AirspaceData
  analysisCache : String → Option TacticalAnalysis

/-- One iteration of the read loop of Go `handleWebSocket` (lines 844–869):
given the connection's current region and the decoded inbound frame
(`none` when `json.Unmarshal` failed), returns the connection's new region in
the `clients` registry and the list of messages written to this connection.
The source updates `clients[conn] = request.Region` and sends the cached
snapshot for the requested region, with no membership check against
`regions` and no analysis send. -/
def wsHandleMessage (caches : WsCaches) (current : String)
    (req : Option WsRequest) : String × List ServerMessage :=
  match req with
  | none => (current, [])
  | some r =>
    if r.action = "subscribe" then
      (r.region,
        match caches.airspaceCache r.region with
        | some d => [ServerMessage.snapshot d]
        | none => [])
    else (current, [])

/-- A concrete aircraft record used in witnesses. -/
def demoAircraft : Aircraft :=
  { icao24 := "abc123", callsign := "TEST1", originCountry := "US"
    timePosition := some 100, lastContact := 100
    longitude := some 120, latitude := some 24
    baroAltitude := some 1000, onGround := false, velocity := some 200
    trueTrack := some 90, verticalRate := some 0, sensors := []
    geoAltitude := some 1000, squawk := some "7000", spi := false
    positionSource := 0, category := 0 }

/-- A concrete cached snapshot for region `socal`. -/
def demoSnapshot : AirspaceData :=
  { timestamp := 1700000000, aircraft := [demoAircraft]
    region := "socal", count := 1 }

/-- A concrete cached analysis for region `socal`. -/
def demoAnalysis : TacticalAnalysis :=
  { timestamp := "2026-10-11T00:00:00Z", region := "socal"
    overallThreatLevel := "NOMINAL", threatScore := 0, summary := "quiet"
    keyObservations := [], aircraftOfInterest := []
    tacticalRecommendations := [], patternAnalysis := none
    nextUpdatePriority := "NORMAL", raw := [] }

/-- Concrete caches holding both a snapshot and an analysis for `socal` and
nothing else. -/
def demoCaches : WsCaches :=
  { airspaceCache := fun r => if r = "socal" then some demoSnapshot else none
    analysisCache := fun r => if r = "socal" then some demoAnalysis else none }

/-- Counterexample to claim C2: a subscribe frame naming `mars` — which is not
a configured region — switches the connection's registry entry to `mars`
instead of keeping the prior region `taiwan`; the handler performs no
validation against the `regions` map. -/
theorem subscribe_unknown_region_counterexample :
    (wsHandleMessage demoCaches "taiwan" (some ⟨"subscribe", "mars"⟩)).1 = "mars" ∧
    lookupRegion "mars" = none ∧
    ("mars" : String) ≠ "taiwan" := by
  refine ⟨rfl, by decide, by decide⟩

/-- Amended claim C2: on any decodable frame with action `subscribe`, the
connection's region is set to the requested region unconditionally (whether
or not it names a configured region); any other frame — different action or
undecodable — leaves the region unchanged. -/
theorem subscribe_sets_region_unconditionally :
    (∀ caches current r,
      (wsHandleMessage caches current (some ⟨"subscribe", r⟩)).1 = r) ∧
    (∀ caches current m, m.action ≠ "subscribe" →
      (wsHandleMessage caches current (some m)).1 = current) ∧
    (∀ caches current,
      (wsHandleMessage caches current none).1 = current) := by
  refine ⟨fun caches current r => rfl, ?_, fun caches current => rfl⟩
  intro caches current m h
  simp [wsHandleMessage, h]

/-- Witness for the amended C2 at concrete inputs. -/
theorem subscribe_sets_region_unconditionally_witness :
    (wsHandleMessage demoCaches "taiwan" (some ⟨"subscribe", "mars"⟩)).1 = "mars" ∧
    (wsHandleMessage demoCaches "taiwan" (some ⟨"ping", "socal"⟩)).1 = "taiwan" ∧
    (wsHandleMessage demoCaches "taiwan" none).1 = "taiwan" :=
  ⟨subscribe_sets_region_unconditionally.1 demoCaches "taiwan" "mars",
   subscribe_sets_region_unconditionally.2.1 demoCaches "taiwan"
     ⟨"ping", "socal"⟩ (by decide),
   subscribe_sets_region_unconditionally.2.2 demoCaches "taiwan"⟩

/-- Counterexample to claim C3: with both a snapshot and an analysis cached
for `socal`, a subscribe to `socal` makes the handler send exactly the cached
snapshot — the cached analysis, although present, is not sent. -/
theorem subscribe_sends_snapshot_only_counterexample :
    wsHandleMessage demoCaches "taiwan" (some ⟨"subscribe", "socal"⟩) =
      ("socal", [ServerMessage.snapshot demoSnapshot]) ∧
    demoCaches.analysisCache "socal" = some demoAnalysis := by
  exact ⟨rfl, rfl⟩

/-- Amended claim C3: on a well-formed subscribe message the handler
immediately sends the currently cached Snapshot for the new region when one
is present (and nothing when absent); the cached Tactical Analysis is never
sent in response to a subscribe — it only reaches the client through the
periodic analysis broadcast. -/
theorem subscribe_sends_cached_snapshot_only :
    (∀ caches current r,
      (wsHandleMessage caches current (some ⟨"subscribe", r⟩)).2 =
        (match caches.airspaceCache r with
         | some d => [ServerMessage.snapshot d]
         | none => [])) ∧
    (∀ caches current req m,
      m ∈ (wsHandleMessage caches current req).2 →
      ∃ d, m = ServerMessage.snapshot d) := by
  refine ⟨fun caches current r => rfl, ?_⟩
  intro caches current req m hm
  match req with
  | none => simp [wsHandleMessage] at hm
  | some r =>
    by_cases ha : r.action = "subscribe"
    · simp only [wsHandleMessage, if_pos ha] at hm
      cases hc : caches.airspaceCache r.region with
      | none => rw [hc] at hm; simp at hm
      | some d =>
        rw [hc] at hm
        simp only [List.mem_singleton] at hm
        exact ⟨d, hm⟩
    · simp [wsHandleMessage, ha] at hm

/-- Witness for the amended C3 at concrete inputs. -/
theorem subscribe_sends_cached_snapshot_only_witness :
    (wsHandleMessage demoCaches "taiwan" (some ⟨"subscribe", "socal"⟩)).2 =
      [ServerMessage.snapshot demoSnapshot] ∧
    (∃ d, ServerMessage.snapshot demoSnapshot = ServerMessage.snapshot d) :=
  ⟨subscribe_sends_cached_snapshot_only.1 demoCaches "taiwan" "socal",
   subscribe_sends_cached_snapshot_only.2 demoCaches "taiwan"
     (some ⟨"subscribe", "socal"⟩) (ServerMessage.snapshot demoSnapshot)
     (by rw [subscribe_sends_cached_snapshot_only.1]; exact List.mem_singleton.mpr rfl)⟩

/-- The upstream HTTP reply observed by `fetchOpenSkyData`: status code plus
the decoded body of a 200 reply (`none` when `json.Unmarshal` of the body
fails, `some states` when it yields the OpenSky state rows). -/
structure UpstreamResponse where
  status : Nat
  body : Option (List (List JValue))
deriving DecidableEq, Repr

/-- The status-code handling of Go `fetchOpenSkyData` (lines 743–770),
threading the cached OAuth token (`oauthToken` global): 429 → error, token
kept; 401 → token cleared, error; other non-200 → error; 200 → decode body
and parse the state rows.  The first component is the token cell after the
call, the second the function's `([]Aircraft, error)` result. -/
def fetchStatusStep (oauthToken : String) (resp : UpstreamResponse) :
    String × Except String (List Aircraft) :=
  if resp.status = 429 then
    (oauthToken, .error "OpenSky rate limited (429) - will retry next cycle")
  else if resp.status = 401 then
    ("", .error "OpenSky auth failed (401) - check credentials")
  else if resp.status ≠ 200 then
    (oauthToken, .error "API returned non-200")
  else
    match resp.body with
    | none => (oauthToken, .error "JSON parse failed")
    | some states => (oauthToken, .ok (parseAircraftStates states))

/-- Go `fetchAndBroadcast` (lines 629–652) given the Fetcher's result: on
error it logs and returns, leaving the snapshot cache untouched and sending
nothing; on success it builds a fresh `AirspaceData`, swaps it into the cache
under the region name, and broadcasts to every client subscribed to that
region.  Clients are (id, subscribed-region) pairs; the returned list holds
the ids written to.  The function itself returns no error to its caller. -/
def fetchAndBroadcast (airspaceCache : String → Option AirspaceData)
    (clients : List (Nat × String)) (regionName : String)
    (fetchResult : Except String (List Aircraft)) (now : Int) :
    (String → Option AirspaceData) × List Nat :=
  match fetchResult with
  | .error _ => (airspaceCache, [])
  | .ok aircraft =>
    let data : AirspaceData :=
      { timestamp := now, aircraft := aircraft
        region := regionName, count := aircraft.length }
    (fun r => if r = regionName then some data else airspaceCache r,
     (clients.filter (fun c => c.2 = regionName)).map (·.1))

/-- Claim C4: when the upstream replies 429, the poll cycle built from
`fetchOpenSkyData` followed by `fetchAndBroadcast` leaves the snapshot cache
pointwise unchanged for every region, broadcasts to no client, keeps the
cached token, and the error raised by the Fetcher is absorbed (the cycle's
only outputs are the unchanged cache and the empty send list — there is no
error channel past the Poller boundary). -/
theorem rate_limited_429_preserves_cache :
    ∀ (cache : String → Option AirspaceData) (clients : List (Nat × String))
      (tok regionName : String) (body : Option (List (List JValue))) (now : Int),
      (∀ r, (fetchAndBroadcast cache clients regionName
              (fetchStatusStep tok ⟨429, body⟩).2 now).1 r = cache r) ∧
      (fetchAndBroadcast cache clients regionName
        (fetchStatusStep tok ⟨429, body⟩).2 now).2 = [] ∧
      (fetchStatusStep tok ⟨429, body⟩).1 = tok := by
  intro cache clients tok regionName body now
  refine ⟨fun r => rfl, rfl, rfl⟩

/-- The cached-credential cell: Go globals `oauthToken` and
`oauthTokenExpiry` (seconds on a logical clock). -/
structure TokenState where
  oauthToken : String
  oauthTokenExpiry : Int
deriving DecidableEq, Repr

/-- Outcome of the client-credentials exchange HTTP round-trip: the provider
grants a token with a lifetime, or the request/decoding fails (non-200,
transport error, or body parse failure all collapse into `failure`). -/
inductive TokenExchange where
  | success (accessToken : String) (expiresIn : Int)
  | failure (msg : String)
deriving DecidableEq, Repr

/-- Go `getOpenSkyToken` (lines 654–695), with the mutex-guarded critical
section modelled as one atomic step.  Inputs: the configured credentials, the
cached token cell, the current instant, and the exchange outcome (consulted
only when the code actually issues the exchange).  Output: the token cell
after the call, the `(string, error)` result, and a flag that is `true`
exactly when the HTTP token exchange was issued.  The cached token is reused
when it is nonempty and `now` is strictly before `expiry - 60s`. -/
def getOpenSkyToken (clientID clientSecret : String) (st : TokenState)
    (now : Int) (exchange : TokenExchange) :
    TokenState × Except String String × Bool :=
  if clientID = "" ∨ clientSecret = "" then
    (st, .error "no OAuth2 credentials", false)
  else if st.oauthToken ≠ "" ∧ now < st.oauthTokenExpiry - 60 then
    (st, .ok st.oauthToken, false)
  else
    match exchange with
    | .failure msg => (st, .error msg, true)
    | .success tok lifetime => (⟨tok, now + lifetime⟩, .ok tok, true)

/-- The Authorization header attached by `fetchOpenSkyData` (lines 726–735):
OAuth2 bearer when a client id is configured and the token call succeeded,
anonymous fallback when the token call failed, basic auth when username and
password are configured, anonymous otherwise. -/
inductive AuthHeader where
  | bearer (tok : String)
  | basic (user pass : String)
  | anonymous
deriving DecidableEq, Repr

/-- Header selection in Go `fetchOpenSkyData`. -/
def buildAuthHeader (clientID username password : String)
    (tokenResult : Except String String) : AuthHeader :=
  if clientID ≠ "" then
    match tokenResult with
    | .ok tok => .bearer tok
    | .error _ => .anonymous
  else if username ≠ "" ∧ password ≠ "" then .basic username password
  else .anonymous

/-- Claim C5: with OAuth2 credentials configured, `getOpenSkyToken` skips the
exchange and returns the cached token exactly when a token is cached and more
than 60 seconds remain before its expiry; otherwise it issues the exchange,
and on exchange failure returns an error, whereupon the fetch falls back to
an anonymous (no-auth-header) request; on success it stores the token with
expiry `now + lifetime` and returns it. -/
theorem getOpenSkyToken_claim :
    ∀ (cid csec : String) (st : TokenState) (now : Int) (ex : TokenExchange),
      cid ≠ "" → csec ≠ "" →
      ((getOpenSkyToken cid csec st now ex).2.2 = false ↔
        (st.oauthToken ≠ "" ∧ now < st.oauthTokenExpiry - 60)) ∧
      ((st.oauthToken ≠ "" ∧ now < st.oauthTokenExpiry - 60) →
        getOpenSkyToken cid csec st now ex = (st, .ok st.oauthToken, false)) ∧
      (∀ msg, ex = .failure msg →
        ¬(st.oauthToken ≠ "" ∧ now < st.oauthTokenExpiry - 60) →
        getOpenSkyToken cid csec st now ex = (st, .error msg, true) ∧
        buildAuthHeader cid "" "" (.error msg) = .anonymous) ∧
      (∀ tok lifetime, ex = .success tok lifetime →
        ¬(st.oauthToken ≠ "" ∧ now < st.oauthTokenExpiry - 60) →
        getOpenSkyToken cid csec st now ex =
          (⟨tok, now + lifetime⟩, .ok tok, true)) := by
  intro cid csec st now ex hcid hcsec
  have hcreds : ¬(cid = "" ∨ csec = "") := by
    rintro (h | h) <;> [exact hcid h; exact hcsec h]
  refine ⟨?_, ?_, ?_, ?_⟩
  · constructor
    · intro hflag
      by_contra hvalid
      rw [getOpenSkyToken.eq_def, if_neg hcreds, if_neg hvalid] at hflag
      cases ex <;> simp at hflag
    · intro hvalid
      rw [getOpenSkyToken.eq_def, if_neg hcreds, if_pos hvalid]
  · intro hvalid
    rw [getOpenSkyToken.eq_def, if_neg hcreds, if_pos hvalid]
  · intro msg hex hvalid
    subst hex
    rw [getOpenSkyToken.eq_def, if_neg hcreds, if_neg hvalid]
    exact ⟨rfl, by simp [buildAuthHeader, hcid]⟩
  · intro tok lifetime hex hvalid
    subst hex
    rw [getOpenSkyToken.eq_def, if_neg hcreds, if_neg hvalid]

/-- Witness for C5 at concrete inputs: a still-valid cached token is returned
without an exchange; an absent token with a failing exchange yields an error
and an anonymous fetch. -/
theorem getOpenSkyToken_claim_witness :
    (getOpenSkyToken "cid" "sec" ⟨"tok0", 1000⟩ 100 (.failure "down")).2.2 = false ∧
    getOpenSkyToken "cid" "sec" ⟨"tok0", 1000⟩ 100 (.failure "down") =
      (⟨"tok0", 1000⟩, .ok "tok0", false) ∧
    getOpenSkyToken "cid" "sec" ⟨"", 0⟩ 100 (.failure "down") =
      (⟨"", 0⟩, .error "down", true) ∧
    buildAuthHeader "cid" "" "" (.error "down") = .anonymous := by
  have h := getOpenSkyToken_claim "cid" "sec" ⟨"tok0", 1000⟩ 100
    (.failure "down") (by decide) (by decide)
  have h2 := getOpenSkyToken_claim "cid" "sec" ⟨"", 0⟩ 100
    (.failure "down") (by decide) (by decide)
  have hv : (TokenState.mk "tok0" 1000).oauthToken ≠ "" ∧
      (100 : Int) < (TokenState.mk "tok0" 1000).oauthTokenExpiry - 60 := by
    exact ⟨by decide, by decide⟩
  have hnv : ¬((TokenState.mk "" 0).oauthToken ≠ "" ∧
      (100 : Int) < (TokenState.mk "" 0).oauthTokenExpiry - 60) := by
    intro hc; exact hc.1 rfl
  have h3 := h2.2.2.1 "down" rfl hnv
  exact ⟨h.1.mpr hv, h.2.1 hv, h3.1, h3.2⟩

/-- Claim C6: a 401 from the upstream clears the cached token and surfaces an
error for that cycle; a subsequent `getOpenSkyToken` call, finding the empty
token cell, must issue a fresh exchange (it cannot return a cached token). -/
theorem unauthorized_401_clears_token :
    ∀ (tok : String) (body : Option (List (List JValue)))
      (cid csec : String) (expiry now : Int) (ex : TokenExchange),
      cid ≠ "" → csec ≠ "" →
      (fetchStatusStep tok ⟨401, body⟩).1 = "" ∧
      (∃ e, (fetchStatusStep tok ⟨401, body⟩).2 = .error e) ∧
      (getOpenSkyToken cid csec ⟨"", expiry⟩ now ex).2.2 = true := by
  intro tok body cid csec expiry now ex hcid hcsec
  have hcreds : ¬(cid = "" ∨ csec = "") := by
    rintro (h | h) <;> [exact hcid h; exact hcsec h]
  have hnv : ¬((TokenState.mk "" expiry).oauthToken ≠ "" ∧
      now < (TokenState.mk "" expiry).oauthTokenExpiry - 60) := by
    intro hc; exact hc.1 rfl
  refine ⟨rfl, ⟨_, rfl⟩, ?_⟩
  rw [getOpenSkyToken.eq_def, if_neg hcreds, if_neg hnv]
  cases ex <;> rfl

/-- Witness for C6 at concrete inputs. -/
theorem unauthorized_401_clears_token_witness :
    (fetchStatusStep "oldtok" ⟨401, none⟩).1 = "" ∧
    (∃ e, (fetchStatusStep "oldtok" ⟨401, none⟩).2 = .error e) ∧
    (getOpenSkyToken "cid" "sec" ⟨"", 99999⟩ 0 (.success "fresh" 1800)).2.2 = true :=
  unauthorized_401_clears_token "oldtok" none "cid" "sec" 99999 0
    (.success "fresh" 1800) (by decide) (by decide)

/-- The minimum inter-call gap (seconds) computed at the top of
`fetchOpenSkyData` (lines 700–704): 3 when an OAuth2 client id or a username
is configured, 6 otherwise. -/
def fetchMinGap (clientID username : String) : Int :=
  if clientID ≠ "" ∨ username ≠ "" then 3 else 6

/-- The rate-limiter critical section of `fetchOpenSkyData` (lines 699–712),
executed while holding the single global `openSkyMutex` and therefore
serialized across all regional fetchers: compute the elapsed time since
`lastOpenSkyCall`, sleep for the remaining gap when under the minimum, then
stamp `lastOpenSkyCall` with the instant the upstream request is issued.
Returns that stamped instant on a logical clock (sleeping advances the clock
exactly by the remaining gap). -/
def rateLimiterStamp (lastCall now : Int) (clientID username : String) : Int :=
  if now - lastCall < fetchMinGap clientID username then
    lastCall + fetchMinGap clientID username
  else now

/-- Claim C7: the gap is 3 s whenever any credential is configured and 6 s
anonymously, and for any two consecutive Fetcher calls — any regions, the
sequence being serialized by the single global mutex — the second call's
stamped request start is no earlier than the first call's stamped start plus
the minimum gap. -/
theorem rate_limiter_min_gap :
    ∀ (lastCall now1 now2 : Int) (cid user : String),
      (cid ≠ "" ∨ user ≠ "" → fetchMinGap cid user = 3) ∧
      (cid = "" ∧ user = "" → fetchMinGap cid user = 6) ∧
      rateLimiterStamp lastCall now1 cid user ≥
        lastCall + fetchMinGap cid user ∧
      rateLimiterStamp (rateLimiterStamp lastCall now1 cid user) now2 cid user ≥
        rateLimiterStamp lastCall now1 cid user + fetchMinGap cid user := by
  intro lastCall now1 now2 cid user
  refine ⟨fun h => by rw [fetchMinGap, if_pos h],
          fun h => by rw [fetchMinGap, if_neg (by rintro (hc | hc) <;> simp [h.1, h.2] at hc)],
          ?_, ?_⟩
  · rw [rateLimiterStamp]; split <;> omega
  · rw [rateLimiterStamp]; split <;> omega

/-- Witness for C7 at concrete inputs: with a client id configured (3 s gap)
and a second call arriving 1 s after the first stamp, the second stamped
start is at least 3 s after the first. -/
theorem rate_limiter_min_gap_witness :
    fetchMinGap "cid" "" = 3 ∧
    rateLimiterStamp 100 101 "cid" "" ≥ 100 + fetchMinGap "cid" "" ∧
    rateLimiterStamp (rateLimiterStamp 100 101 "cid" "") 102 "cid" "" ≥
      rateLimiterStamp 100 101 "cid" "" + fetchMinGap "cid" "" :=
  ⟨(rate_limiter_min_gap 100 101 102 "cid" "").1 (Or.inl (by decide)),
   (rate_limiter_min_gap 100 101 102 "cid" "").2.2.1,
   (rate_limiter_min_gap 100 101 102 "cid" "").2.2.2⟩

/-- Go `findJSONStart`: index of the first `{` in the reply, `-1` (here
`none`) when absent. -/
def findJSONStart : List Char → Option Nat
  | [] => none
  | c :: rest => if c = '{' then some 0 else (findJSONStart rest).map (· + 1)

/-- The loop of Go `findJSONEnd` carrying the running brace depth: `{`
increments, `}` decrements and the index is returned the first time the
depth reaches zero on a `}`. -/
def findJSONEndAux (depth : Int) : List Char → Option Nat
  | [] => none
  | c :: rest =>
    if c = '{' then (findJSONEndAux (depth + 1) rest).map (· + 1)
    else if c = '}' then
      if depth - 1 = 0 then some 0
      else (findJSONEndAux (depth - 1) rest).map (· + 1)
    else (findJSONEndAux depth rest).map (· + 1)

/-- Go `findJSONEnd`: scan with initial depth 0. -/
def findJSONEnd (s : List Char) : Option Nat := findJSONEndAux 0 s

/-- Contribution of one character to the brace depth. -/
def braceDelta (c : Char) : Int :=
  if c = '{' then 1 else if c = '}' then -1 else 0

/-- Net brace balance of a string: occurrences of `{` minus `}`. -/
def braceBal : List Char → Int
  | [] => 0
  | c :: rest => braceDelta c + braceBal rest

theorem findJSONStart_spec :
    ∀ (s : List Char) (i : Nat), findJSONStart s = some i →
      s[i]? = some '{' ∧ ∀ j, j < i → s[j]? ≠ some '{' := by
  intro s
  induction s with
  | nil => intro i h; simp [findJSONStart] at h
  | cons c rest ih =>
    intro i h
    rw [findJSONStart] at h
    by_cases hc : c = '{'
    · rw [if_pos hc] at h
      obtain rfl : (0 : Nat) = i := Option.some.inj h
      exact ⟨by simp [hc], fun j hj => absurd hj (Nat.not_lt_zero j)⟩
    · rw [if_neg hc] at h
      obtain ⟨i', hi', rfl⟩ := Option.map_eq_some'.mp h
      obtain ⟨hget, hmin⟩ := ih i' hi'
      refine ⟨by simpa using hget, ?_⟩
      intro j hj
      match j with
      | 0 => simpa using fun hEq => hc hEq
      | j' + 1 =>
        have : j' < i' := by omega
        simpa using hmin j' this

theorem findJSONEndAux_spec :
    ∀ (s : List Char) (d : Int) (j : Nat), findJSONEndAux d s = some j →
      s[j]? = some '}' ∧ d + braceBal (s.take (j + 1)) = 0 ∧
      ∀ k, k < j → ¬(s[k]? = some '}' ∧ d + braceBal (s.take (k + 1)) = 0) := by
  intro s
  induction s with
  | nil => intro d j h; simp [findJSONEndAux] at h
  | cons c rest ih =>
    intro d j h
    rw [findJSONEndAux] at h
    by_cases hc : c = '{'
    · rw [if_pos hc] at h
      obtain ⟨j', hj', rfl⟩ := Option.map_eq_some'.mp h
      obtain ⟨hget, hbal, hmin⟩ := ih (d + 1) j' hj'
      have hdelta : braceDelta c = 1 := by simp [braceDelta, hc]
      refine ⟨by simpa using hget, ?_, ?_⟩
      · simp only [List.take_succ_cons, braceBal, hdelta]
        omega
      · intro k hk
        match k with
        | 0 =>
          rintro ⟨habs, -⟩
          simp only [List.getElem?_cons_zero, Option.some.injEq] at habs
          rw [hc] at habs
          exact absurd habs (by decide)
        | k' + 1 =>
          rintro ⟨hget', hbal'⟩
          refine hmin k' (by omega) ⟨by simpa using hget', ?_⟩
          simp only [List.take_succ_cons, braceBal, hdelta] at hbal'
          omega
    · rw [if_neg hc] at h
      by_cases hc2 : c = '}'
      · rw [if_pos hc2] at h
        have hdelta : braceDelta c = -1 := by simp [braceDelta, hc, hc2]
        by_cases hd : d - 1 = 0
        · rw [if_pos hd] at h
          obtain rfl : (0 : Nat) = j := Option.some.inj h
          refine ⟨by simp [hc2], ?_, fun k hk => absurd hk (Nat.not_lt_zero k)⟩
          simp only [List.take_succ_cons, List.take_zero, braceBal, hdelta]
          omega
        · rw [if_neg hd] at h
          obtain ⟨j', hj', rfl⟩ := Option.map_eq_some'.mp h
          obtain ⟨hget, hbal, hmin⟩ := ih (d - 1) j' hj'
          refine ⟨by simpa using hget, ?_, ?_⟩
          · simp only [List.take_succ_cons, braceBal, hdelta]
            omega
          · intro k hk
            match k with
            | 0 =>
              rintro ⟨-, hbal'⟩
              simp only [List.take_succ_cons, List.take_zero, braceBal, hdelta] at hbal'
              omega
            | k' + 1 =>
              rintro ⟨hget', hbal'⟩
              refine hmin k' (by omega) ⟨by simpa using hget', ?_⟩
              simp only [List.take_succ_cons, braceBal, hdelta] at hbal'
              omega
      · rw [if_neg hc2] at h
        have hdelta : braceDelta c = 0 := by simp [braceDelta, hc, hc2]
        obtain ⟨j', hj', rfl⟩ := Option.map_eq_some'.mp h
        obtain ⟨hget, hbal, hmin⟩ := ih d j' hj'
        refine ⟨by simpa using hget, ?_, ?_⟩
        · simp only [List.take_succ_cons, braceBal, hdelta]
          omega
        · intro k hk
          match k with
          | 0 =>
            rintro ⟨habs, -⟩
            simp only [List.getElem?_cons_zero, Option.some.injEq] at habs
            exact hc2 habs
          | k' + 1 =>
            rintro ⟨hget', hbal'⟩
            refine hmin k' (by omega) ⟨by simpa using hget', ?_⟩
            simp only [List.take_succ_cons, braceBal, hdelta] at hbal'
            omega

/-- The JSON-extraction slice of Go `callOpenAIAnalysis` (lines 469–479):
`jsonStart` defaults to 0 when no `{` exists, `jsonEnd` defaults to the reply
length when no balanced close is found, and the reply is sliced as
`content[jsonStart:jsonEnd]`. -/
def extractJSON (content : List Char) : List Char :=
  let jsonStart : Nat :=
    match findJSONStart content with
    | some i => i
    | none => 0
  let jsonEnd : Nat :=
    match findJSONEnd (content.drop jsonStart) with
    | some j => jsonStart + j + 1
    | none => content.length
  (content.take jsonEnd).drop jsonStart

/-- The decode-and-fallback tail of Go `callOpenAIAnalysis` (lines 481–497):
`json.Unmarshal` of the extracted slice is the abstract `decode`; on failure
the degraded record is returned (UNKNOWN, score 0, raw reply preserved, all
other fields Go zero values); on success the decoded record is kept and its
timestamp and region are overwritten with the server's values. -/
def parseAnalysisReply (decode : List Char → Option TacticalAnalysis)
    (region : String) (now : String) (content : List Char) : TacticalAnalysis :=
  match decode (extractJSON content) with
  | none =>
    { timestamp := now, region := region, overallThreatLevel := "UNKNOWN"
      threatScore := 0
      summary := "Analysis parsing failed - raw response available"
      keyObservations := [], aircraftOfInterest := []
      tacticalRecommendations := [], patternAnalysis := none
      nextUpdatePriority := "", raw := content }
  | some a => { a with timestamp := now, region := region }

/-- Go `callOpenAIAnalysis` as seen by its callers: transport errors, an
OpenAI error payload and an empty choices list all surface as `.error`; a
reply text is parsed by `parseAnalysisReply`. -/
def callOpenAIAnalysis (decode : List Char → Option TacticalAnalysis)
    (region : String) (now : String)
    (serviceReply : Except String (List Char)) : Except String TacticalAnalysis :=
  match serviceReply with
  | .error e => .error e
  | .ok content => .ok (parseAnalysisReply decode region now content)

/-- Claim C8: (1) whenever the reply has a first `{` at index `i` and the
depth scan of the suffix finds a balanced close at offset `j`, the extracted
slice is exactly that substring, `i` is the first `{`, position `j` of the
suffix is a `}` at which the brace balance first returns to zero (nested
braces tolerated, surrounding prose discarded); (2) whenever decoding of the
extracted slice fails, the result is the degraded record with threat level
UNKNOWN, score 0 and the full raw reply preserved — the reply is never
dropped. -/
theorem analysis_reply_extraction_claim :
    (∀ (content : List Char) (i j : Nat),
      findJSONStart content = some i →
      findJSONEnd (content.drop i) = some j →
      extractJSON content = (content.drop i).take (j + 1) ∧
      content[i]? = some '{' ∧
      (∀ k, k < i → content[k]? ≠ some '{') ∧
      (content.drop i)[j]? = some '}' ∧
      braceBal ((content.drop i).take (j + 1)) = 0 ∧
      (∀ k, k < j → ¬((content.drop i)[k]? = some '}' ∧
        braceBal ((content.drop i).take (k + 1)) = 0))) ∧
    (∀ (decode : List Char → Option TacticalAnalysis) (region now : String)
       (content : List Char),
      decode (extractJSON content) = none →
      parseAnalysisReply decode region now content =
        { timestamp := now, region := region, overallThreatLevel := "UNKNOWN"
          threatScore := 0
          summary := "Analysis parsing failed - raw response available"
          keyObservations := [], aircraftOfInterest := []
          tacticalRecommendations := [], patternAnalysis := none
          nextUpdatePriority := "", raw := content }) := by
  constructor
  · intro content i j hstart hend
    obtain ⟨hs1, hs2⟩ := findJSONStart_spec content i hstart
    obtain ⟨he1, he2, he3⟩ := findJSONEndAux_spec (content.drop i) 0 j hend
    refine ⟨?_, hs1, hs2, he1, by omega, ?_⟩
    · simp only [extractJSON, hstart, hend]
      rw [List.drop_take]
      congr 1
      omega
    · intro k hk hcontra
      exact he3 k hk ⟨hcontra.1, by omega⟩
  · intro decode region now content h
    simp only [parseAnalysisReply, h]

/-- A concrete reasoning-service reply: prose, then a JSON object with a
nested object, then trailing prose. -/
def demoReply : List Char :=
  ['S', 'u', 'r', 'e', ':', ' ', '{', '\"', 'a', '\"', ':', '{', '}', '}',
   ' ', 'o', 'k']

/-- Witness for C8 at the concrete reply: the first `{` is at index 6, its
balanced close is at offset 7 of the suffix, the slice is extracted, and a
failing decode yields the degraded record carrying the raw reply. -/
theorem analysis_reply_extraction_claim_witness :
    extractJSON demoReply = (demoReply.drop 6).take 8 ∧
    demoReply[6]? = some '{' ∧
    parseAnalysisReply (fun _ => none) "taiwan" "T1" demoReply =
      { timestamp := "T1", region := "taiwan", overallThreatLevel := "UNKNOWN"
        threatScore := 0
        summary := "Analysis parsing failed - raw response available"
        keyObservations := [], aircraftOfInterest := []
        tacticalRecommendations := [], patternAnalysis := none
        nextUpdatePriority := "", raw := demoReply } :=
  ⟨(analysis_reply_extraction_claim.1 demoReply 6 7 (by decide) (by decide)).1,
   (analysis_reply_extraction_claim.1 demoReply 6 7 (by decide) (by decide)).2.1,
   analysis_reply_extraction_claim.2 (fun _ => none) "taiwan" "T1" demoReply rfl⟩

/-- Go `performAnalysis` (lines 365–397), the body of the periodic ticker
`runTacticalAnalysis`: skip when no API key, skip when the region has no
cached snapshot or an empty aircraft list, otherwise call the reasoning
service; on error keep the analysis cache, on success store the analysis
under the region key and broadcast to that region's subscribers.  Outputs:
the analysis cache after the tick, a flag that is `true` exactly when the
reasoning-service call was issued, and the client ids broadcast to.  The
source consults the `clients` registry only for the broadcast, never to
decide whether to call. -/
def performAnalysisStep (apiKey regionName : String)
    (airspaceCache : String → Option AirspaceData)
    (analysisCache : String → Option TacticalAnalysis)
    (clients : List (Nat × String))
    (decode : List Char → Option TacticalAnalysis) (now : String)
    (serviceReply : Except String (List Char)) :
    (String → Option TacticalAnalysis) × Bool × List Nat :=
  if apiKey = "" then (analysisCache, false, [])
  else
    match airspaceCache regionName with
    | none => (analysisCache, false, [])
    | some data =>
      if data.aircraft.length = 0 then (analysisCache, false, [])
      else
        match callOpenAIAnalysis decode regionName now serviceReply with
        | .error _ => (analysisCache, true, [])
        | .ok analysisResult =>
          (fun r => if r = regionName then some analysisResult
                    else analysisCache r,
           true,
           (clients.filter (fun c => c.2 = regionName)).map (·.1))

/-- Go `handleRunAnalysis` (lines 569–609), the on-demand POST path: method
gate, region defaulting to `taiwan`, 503 without API key or data, 500 when
the call fails, otherwise store under the region key and return 200 with the
analysis. -/
def handleRunAnalysis (method queryRegion apiKey : String)
    (airspaceCache : String → Option AirspaceData)
    (analysisCache : String → Option TacticalAnalysis)
    (decode : List Char → Option TacticalAnalysis) (now : String)
    (serviceReply : Except String (List Char)) :
    (String → Option TacticalAnalysis) × Nat × Option TacticalAnalysis :=
  if method ≠ "POST" then (analysisCache, 405, none)
  else
    let region := if queryRegion = "" then "taiwan" else queryRegion
    if apiKey = "" then (analysisCache, 503, none)
    else
      match airspaceCache region with
      | none => (analysisCache, 503, none)
      | some data =>
        if data.aircraft.length = 0 then (analysisCache, 503, none)
        else
          match callOpenAIAnalysis decode region now serviceReply with
          | .error _ => (analysisCache, 500, none)
          | .ok analysisResult =>
            (fun r => if r = region then some analysisResult
                      else analysisCache r,
             200, some analysisResult)

/-- A concrete snapshot cache holding one aircraft for `taiwan`. -/
def demoAirspaceCacheTW : String → Option AirspaceData :=
  fun r => if r = "taiwan" then
    some { timestamp := 0, aircraft := [demoAircraft]
           region := "taiwan", count := 1 }
  else none

/-- Counterexample to claim C9: with an API key configured, a non-empty
cached snapshot for `taiwan`, and an empty subscriber registry (zero current
subscribers for every region), the periodic tick still issues the
reasoning-service call — the source never consults the registry before
calling. -/
theorem periodic_analysis_zero_subscribers_counterexample :
    (performAnalysisStep "key" "taiwan" demoAirspaceCacheTW (fun _ => none)
      [] (fun _ => none) "T1" (.ok demoReply)).2.1 = true := by
  rfl

/-- Amended claim C9: the periodic path's decision to call the reasoning
service is independent of the subscriber registry; the call is issued exactly
when an API key is configured and the region's cached snapshot exists with a
non-empty aircraft list — regardless of subscriber count (the registry only
determines who receives the resulting broadcast). -/
theorem periodic_analysis_ignores_subscribers :
    ∀ (apiKey regionName : String)
      (airspaceCache : String → Option AirspaceData)
      (analysisCache : String → Option TacticalAnalysis)
      (clients clients2 : List (Nat × String))
      (decode : List Char → Option TacticalAnalysis) (now : String)
      (serviceReply : Except String (List Char)),
      (performAnalysisStep apiKey regionName airspaceCache analysisCache
        clients decode now serviceReply).2.1 =
        (performAnalysisStep apiKey regionName airspaceCache analysisCache
          clients2 decode now serviceReply).2.1 ∧
      ((performAnalysisStep apiKey regionName airspaceCache analysisCache
        clients decode now serviceReply).2.1 = true ↔
        (apiKey ≠ "" ∧ ∃ d, airspaceCache regionName = some d ∧
          d.aircraft.length ≠ 0)) := by
  intro apiKey regionName airspaceCache analysisCache clients clients2
    decode now serviceReply
  by_cases h1 : apiKey = ""
  · refine ⟨by simp [performAnalysisStep, h1], ?_⟩
    constructor
    · intro habs
      simp [performAnalysisStep, h1] at habs
    · rintro ⟨hne, -⟩
      exact absurd h1 hne
  · cases hc : airspaceCache regionName with
    | none =>
      refine ⟨by simp [performAnalysisStep, h1, hc], ?_⟩
      constructor
      · intro habs
        simp [performAnalysisStep, h1, hc] at habs
      · rintro ⟨-, d, hd, -⟩
        exact Option.noConfusion hd
    | some d =>
      by_cases h2 : d.aircraft.length = 0
      · refine ⟨by simp [performAnalysisStep, h1, hc, h2], ?_⟩
        constructor
        · intro habs
          simp [performAnalysisStep, h1, hc, h2] at habs
        · rintro ⟨-, d', hd', hlen'⟩
          obtain rfl := Option.some.inj hd'
          exact absurd h2 hlen'
      · cases hcall : callOpenAIAnalysis decode regionName now serviceReply with
        | error e =>
          refine ⟨by simp [performAnalysisStep, h1, hc, h2, hcall], ?_⟩
          constructor
          · intro _
            exact ⟨h1, d, rfl, h2⟩
          · intro _
            simp [performAnalysisStep, h1, hc, h2, hcall]
        | ok analysisResult =>
          refine ⟨by simp [performAnalysisStep, h1, hc, h2, hcall], ?_⟩
          constructor
          · intro _
            exact ⟨h1, d, rfl, h2⟩
          · intro _
            simp [performAnalysisStep, h1, hc, h2, hcall]

theorem parseAnalysisReply_region_timestamp :
    ∀ (decode : List Char → Option TacticalAnalysis) (region now : String)
      (content : List Char),
      (parseAnalysisReply decode region now content).region = region ∧
      (parseAnalysisReply decode region now content).timestamp = now := by
  intro decode region now content
  unfold parseAnalysisReply
  cases decode (extractJSON content) <;> exact ⟨rfl, rfl⟩

/-- Claim C10: every Tactical Analysis produced by `callOpenAIAnalysis`
carries the caller's region and the server-generated timestamp (whatever the
service reply decoded to, in both the successful-decode and the degraded
case); consequently every entry newly stored in the analysis cache by the
periodic path or the on-demand POST path has its region equal to the cache
key it is stored under and the server timestamp. -/
theorem analysis_cache_region_timestamp_claim :
    (∀ (decode : List Char → Option TacticalAnalysis) (region now : String)
       (reply : Except String (List Char)) (a : TacticalAnalysis),
      callOpenAIAnalysis decode region now reply = .ok a →
      a.region = region ∧ a.timestamp = now) ∧
    (∀ (apiKey regionName : String)
       (airspaceCache : String → Option AirspaceData)
       (analysisCache : String → Option TacticalAnalysis)
       (clients : List (Nat × String))
       (decode : List Char → Option TacticalAnalysis) (now : String)
       (reply : Except String (List Char)) (r : String) (a : TacticalAnalysis),
      (performAnalysisStep apiKey regionName airspaceCache analysisCache
        clients decode now reply).1 r = some a →
      analysisCache r = some a ∨
        (r = regionName ∧ a.region = r ∧ a.timestamp = now)) ∧
    (∀ (method queryRegion apiKey : String)
       (airspaceCache : String → Option AirspaceData)
       (analysisCache : String → Option TacticalAnalysis)
       (decode : List Char → Option TacticalAnalysis) (now : String)
       (reply : Except String (List Char)) (r : String) (a : TacticalAnalysis),
      (handleRunAnalysis method queryRegion apiKey airspaceCache analysisCache
        decode now reply).1 r = some a →
      analysisCache r = some a ∨ (a.region = r ∧ a.timestamp = now)) := by
  have hcall : ∀ (decode : List Char → Option TacticalAnalysis)
      (region now : String) (reply : Except String (List Char))
      (a : TacticalAnalysis),
      callOpenAIAnalysis decode region now reply = .ok a →
      a.region = region ∧ a.timestamp = now := by
    intro decode region now reply a h
    cases reply with
    | error e => simp [callOpenAIAnalysis] at h
    | ok content =>
      simp only [callOpenAIAnalysis, Except.ok.injEq] at h
      exact h ▸ parseAnalysisReply_region_timestamp decode region now content
  refine ⟨hcall, ?_, ?_⟩
  · intro apiKey regionName airspaceCache analysisCache clients decode now
      reply r a h
    by_cases h1 : apiKey = ""
    · left; simpa [performAnalysisStep, h1] using h
    · cases hc : airspaceCache regionName with
      | none => left; simpa [performAnalysisStep, h1, hc] using h
      | some d =>
        by_cases h2 : d.aircraft.length = 0
        · left; simpa [performAnalysisStep, h1, hc, h2] using h
        · cases hcl : callOpenAIAnalysis decode regionName now reply with
          | error e => left; simpa [performAnalysisStep, h1, hc, h2, hcl] using h
          | ok analysisResult =>
            simp only [performAnalysisStep, if_neg h1, hc, if_neg h2, hcl] at h
            by_cases hr : r = regionName
            · right
              rw [if_pos hr] at h
              have ha : analysisResult = a := Option.some.inj h
              obtain ⟨hreg, hts⟩ :=
                hcall decode regionName now reply analysisResult hcl
              exact ⟨hr, by rw [← ha, hreg]; exact hr.symm,
                by rw [← ha]; exact hts⟩
            · left; rwa [if_neg hr] at h
  · intro method queryRegion apiKey airspaceCache analysisCache decode now
      reply r a h
    by_cases h0 : method ≠ "POST"
    · left; simpa [handleRunAnalysis, h0] using h
    · by_cases h1 : apiKey = ""
      · left; simpa [handleRunAnalysis, h0, h1] using h
      · cases hc : airspaceCache (if queryRegion = "" then "taiwan" else queryRegion) with
        | none => left; simpa [handleRunAnalysis, h0, h1, hc] using h
        | some d =>
          by_cases h2 : d.aircraft.length = 0
          · left; simpa [handleRunAnalysis, h0, h1, hc, h2] using h
          · cases hcl : callOpenAIAnalysis decode
              (if queryRegion = "" then "taiwan" else queryRegion) now reply with
            | error e =>
              left; simpa [handleRunAnalysis, h0, h1, hc, h2, hcl] using h
            | ok analysisResult =>
              simp only [handleRunAnalysis, if_neg h0, if_neg h1, hc,
                if_neg h2, hcl] at h
              by_cases hr : r = (if queryRegion = "" then "taiwan" else queryRegion)
              · right
                rw [if_pos hr] at h
                have ha : analysisResult = a := Option.some.inj h
                obtain ⟨hreg, hts⟩ := hcall decode
                  (if queryRegion = "" then "taiwan" else queryRegion) now reply
                  analysisResult hcl
                exact ⟨by rw [← ha, hreg]; exact hr.symm,
                  by rw [← ha]; exact hts⟩
              · left; rwa [if_neg hr] at h

/-- Witness for C10 at concrete inputs: a degraded parse carries the caller's
region and timestamp, and a periodic tick storing into an empty cache yields
an entry stamped with its key. -/
theorem analysis_cache_region_timestamp_claim_witness :
    (parseAnalysisReply (fun _ => none) "socal" "T1" demoReply).region = "socal" ∧
    (parseAnalysisReply (fun _ => none) "socal" "T1" demoReply).timestamp = "T1" ∧
    ((fun _ => (none : Option TacticalAnalysis)) "taiwan" =
        some (parseAnalysisReply (fun _ => none) "taiwan" "T1" demoReply) ∨
      ("taiwan" = "taiwan" ∧
        (parseAnalysisReply (fun _ => none) "taiwan" "T1" demoReply).region = "taiwan" ∧
        (parseAnalysisReply (fun _ => none) "taiwan" "T1" demoReply).timestamp = "T1")) :=
  ⟨(analysis_cache_region_timestamp_claim.1 (fun _ => none) "socal" "T1"
      (.ok demoReply)
      (parseAnalysisReply (fun _ => none) "socal" "T1" demoReply) rfl).1,
   (analysis_cache_region_timestamp_claim.1 (fun _ => none) "socal" "T1"
      (.ok demoReply)
      (parseAnalysisReply (fun _ => none) "socal" "T1" demoReply) rfl).2,
   analysis_cache_region_timestamp_claim.2.1 "key" "taiwan"
     demoAirspaceCacheTW (fun _ => none) [] (fun _ => none) "T1"
     (.ok demoReply) "taiwan"
     (parseAnalysisReply (fun _ => none) "taiwan" "T1" demoReply) rfl⟩

end SwarmC2
